import Mathlib

/-!
Verification development for the FragmentEngine scraper pipeline
(`scraper/scraper.js`, `scraper/extractors.js`).

The JavaScript source is shallowly embedded: pure functions become Lean
functions over `String`/`List`; JS `Set`/`Map` (which preserve insertion
order) become insertion-ordered duplicate-free lists / association lists;
cryptographic digests (`md5`, `sha256`) are pure functions of their input
string and are taken as function parameters `String → String`; JS falsy
checks on strings (`x || y`) are modelled by `jsOrS`; absent object fields
are modelled with `Option`.
-/

/-- The whitespace characters matched by the regexes `\s` used in
`scraper.js`/`extractors.js`, restricted to the ASCII range. -/
def jsIsSpace (c : Char) : Bool :=
  c = ' ' || c = '\t' || c = '\n' || c = '\r'

/-- Drop leading whitespace from a character list. -/
def trimL (l : List Char) : List Char := l.dropWhile jsIsSpace

/-- Drop trailing whitespace from a character list. -/
def trimR (l : List Char) : List Char := (l.reverse.dropWhile jsIsSpace).reverse

/-- JS `String.prototype.trim()`. -/
def jsTrim (s : String) : String := ⟨trimR (trimL s.data)⟩

/-- JS `a || b` on strings: the empty string is falsy. -/
def jsOrS (a b : String) : String := if a = "" then b else a

/-- JS `a || b` where `a` is a possibly-absent string field. -/
def jsOrO (a : Option String) (b : String) : String :=
  match a with
  | some s => jsOrS s b
  | none => b

/-- A character matched by `\w` after lowercasing: `[a-z0-9_]`. -/
def jsWordChar (c : Char) : Bool :=
  ('a' ≤ c && c ≤ 'z') || ('0' ≤ c && c ≤ '9') || c = '_'

/-- Replace every maximal run of whitespace by a single `' '`
(JS `replace(/\s+/g, ' ')`).  The boolean flag records whether the
previous character was part of a whitespace run. -/
def collapseAux : Bool → List Char → List Char
  | _, [] => []
  | inRun, c :: rest =>
    if jsIsSpace c then
      if inRun then collapseAux true rest else ' ' :: collapseAux true rest
    else c :: collapseAux false rest

/-- The normalization applied by `calculateContentHash` in
`scraper/extractors.js`: lowercase, replace `[^\w\s]` by a space,
collapse whitespace runs, and trim. -/
def normalizeContent (s : String) : String :=
  let lowered := s.data.map Char.toLower
  let depunct := lowered.map (fun c => if jsWordChar c || jsIsSpace c then c else ' ')
  ⟨trimR (trimL (collapseAux false depunct))⟩

/-- `calculateContentHash` from `scraper/extractors.js`.  The guard
`!text || text.trim().length === 0` is modelled by the `jsTrim` test
(the empty string trims to itself); `sha` stands for the SHA-256 digest,
a pure function of the normalized string. -/
def calculateContentHash (sha : String → String) (text : String) : Option String :=
  if jsTrim text = "" then none
  else
    let normalized := normalizeContent text
    if normalized = "" then none else some (sha normalized)

/-- `baseUrl` from `scraper/scraper.js`: `new URL(url)` with `hash` and
`search` cleared.  For the already-normalized absolute URLs produced by
the crawler this equals the part of the URL before the first `'?'` or
`'#'`, which is how it is modelled here. -/
def baseUrl (url : String) : String :=
  ⟨url.data.takeWhile (fun c => c ≠ '?' && c ≠ '#')⟩

/-- Skip to just after the first `"://"` of a URL, if present. -/
def afterScheme : List Char → Option (List Char)
  | [] => none
  | ':' :: '/' :: '/' :: rest => some rest
  | _ :: rest => afterScheme rest

/-- `new URL(u).hostname`, modelled for normalized absolute URLs: the
characters between `"://"` and the next `'/'`, `':'`, `'?'` or `'#'`.
A string with no scheme models the `catch` branch and yields `""`. -/
def hostOf (url : String) : String :=
  match afterScheme url.data with
  | none => ""
  | some rest => ⟨rest.takeWhile (fun c => c ≠ '/' && c ≠ ':' && c ≠ '?' && c ≠ '#')⟩

/-- Does the first list start with the second? -/
def listStartsWith : List Char → List Char → Bool
  | _, [] => true
  | [], _ :: _ => false
  | a :: as, b :: bs => b = a && listStartsWith as bs

/-- Does the first list contain the second as a contiguous sublist? -/
def listHasSub (hay needle : List Char) : Bool :=
  match hay with
  | [] => listStartsWith ([] : List Char) needle
  | c :: rest => listStartsWith (c :: rest) needle || listHasSub rest needle

/-- `hay` contains `needle` as a substring (the semantics of a Typesense
`field:*needle*` wildcard filter value). -/
def containsSub (hay needle : String) : Bool := listHasSub hay.data needle.data

/-- A content fragment as produced by the extraction pipeline
(`scraper/extractors.js` and `MyGovScraper.extractFragments` /
`extractStandaloneFragment` in `scraper/scraper.js`).  Fields that are
absent from a given JS object (e.g. `page_url` on standalone fragments,
`hierarchy_lvl1..3` on an `h1` fragment) are `Option`/empty values.
Presentation and scoring fields not touched by any claim
(`styles_raw`, `classes`, `reading_level`, `popularity_score`,
`popularity_sort`, `site_hierarchy`, `last_modified`) are not modelled. -/
structure Fragment where
  id : String := ""
  url : String := ""
  page_url : Option String := none
  anchor : Option String := none
  title : String := ""
  content_text : String := ""
  content_html : String := ""
  hierarchy_lvl0 : String := ""
  hierarchy_lvl1 : Option String := none
  hierarchy_lvl2 : Option String := none
  hierarchy_lvl3 : Option String := none
  page_hierarchy : List String := []
  life_events : List String := []
  categories : List String := []
  states : List String := []
  provider : Option String := none
  governance : Option String := none
  stage : Option String := none
  stage_variant : Option String := none
  search_keywords : List String := []
  content_hash : Option String := none
  component_type : String := ""
  has_form : Bool := false
  has_checklist : Bool := false
  crawl_version : Nat := 0
  last_seen_at : Nat := 0
deriving DecidableEq, Inhabited

/-- The inputs `extractFragment` reads from the rendered DOM for one
heading: the raw heading text, the text/html of the content span, the
breadcrumb trail and page title, the heading's level and `id` attribute
(`""` when absent), and the raw text of the nearest preceding `h2`/`h3`
sibling (`""` when the `prevAll` selection is empty).  DOM-derived
fields with no bearing on any claim (`component_type`, `has_form`,
`has_checklist`) are carried through as given inputs. -/
structure FragIn where
  url : String := ""
  headingText : String := ""
  contentText : String := ""
  contentHtml : String := ""
  breadcrumbs : List String := []
  pageTitle : String := ""
  headingLevel : Nat := 1
  prevH2Text : String := ""
  prevH3Text : String := ""
  anchorId : String := ""
  componentType : String := "content"
  hasForm : Bool := false
  hasChecklist : Bool := false
deriving DecidableEq, Inhabited

/-- The heading-level hierarchy fields computed by `extractFragment`
(`scraper/extractors.js`): level 1 takes `lvl0` from its own text, levels
2–4 take `lvl0` from the last breadcrumb or the page title, `lvl1`/`lvl2`
from the nearest preceding `h2`/`h3`, with the literal fallbacks
`"Content"`, `"Section"`, `"Subsection"`, `"Item"`. -/
structure HierarchyLevels where
  lvl0 : String
  lvl1 : Option String
  lvl2 : Option String
  lvl3 : Option String
deriving DecidableEq, Inhabited

/-- The `if (headingLevel === 1) ... else ...` ladder of
`scraper/extractors.js` lines 831–850, including the final
`if (!hierarchyLevels.hierarchy_lvl0) hierarchy_lvl0 = 'Content'`
fallback.  `headingText` is the trimmed heading text. -/
def hierarchyFor (headingLevel : Nat) (headingText : String) (breadcrumbs : List String)
    (pageTitle : String) (prevH2Text prevH3Text : String) : HierarchyLevels :=
  let bcTitle := jsOrS (breadcrumbs.getLastD "") (jsOrS pageTitle "Content")
  let levels : HierarchyLevels :=
    if headingLevel = 1 then
      { lvl0 := jsOrS headingText (jsOrS pageTitle "Content"),
        lvl1 := none, lvl2 := none, lvl3 := none }
    else if headingLevel = 2 then
      { lvl0 := bcTitle, lvl1 := some (jsOrS headingText "Section"),
        lvl2 := none, lvl3 := none }
    else if headingLevel = 3 then
      { lvl0 := bcTitle, lvl1 := some (jsOrS prevH2Text "Section"),
        lvl2 := some (jsOrS headingText "Subsection"), lvl3 := none }
    else
      { lvl0 := bcTitle, lvl1 := some (jsOrS prevH2Text "Section"),
        lvl2 := some (jsOrS prevH3Text "Subsection"),
        lvl3 := some (jsOrS headingText "Item") }
  { levels with lvl0 := if levels.lvl0 = "" then "Content" else levels.lvl0 }

/-- `extractFragment` from `scraper/extractors.js`.  `md5` and `sha`
stand for the MD5 and SHA-256 hex digests, pure functions of their input
string.  Keyword extraction (`extractKeywords`) and the presentation /
scoring fields are not modelled. -/
def extractFragment (md5 sha : String → String) (inp : FragIn) : Fragment :=
  let headingText := jsTrim inp.headingText
  let contentText := jsTrim inp.contentText
  let id := md5 (inp.url ++ headingText ++ contentText)
  let levels := hierarchyFor inp.headingLevel headingText inp.breadcrumbs
    inp.pageTitle inp.prevH2Text inp.prevH3Text
  { id := id,
    url := inp.url ++ "#" ++ jsOrS inp.anchorId id,
    page_url := none,
    anchor := some (jsOrS inp.anchorId id),
    title := jsOrS headingText "Untitled",
    content_text := contentText,
    content_html := inp.contentHtml,
    hierarchy_lvl0 := levels.lvl0,
    hierarchy_lvl1 := levels.lvl1,
    hierarchy_lvl2 := levels.lvl2,
    hierarchy_lvl3 := levels.lvl3,
    page_hierarchy := (inp.breadcrumbs ++ [headingText]).filter (fun s => s ≠ ""),
    life_events := [],
    categories := [],
    states := ["National"],
    provider := none, governance := none, stage := none, stage_variant := none,
    search_keywords := [],
    content_hash := calculateContentHash sha contentText,
    component_type := inp.componentType,
    has_form := inp.hasForm,
    has_checklist := inp.hasChecklist,
    crawl_version := 0, last_seen_at := 0 }

/-- Inputs `MyGovScraper.extractStandaloneFragment` reads from a matched
standalone element: its raw text and html, the text of the first
embedded `h1..h4` (`""` when none), the `aria-label` attribute (`""`
when absent), the breadcrumb trail, and the DOM-derived component type. -/
structure StandaloneIn where
  url : String := ""
  elemText : String := ""
  elemHtml : String := ""
  embeddedHeadingText : String := ""
  ariaLabel : String := ""
  breadcrumbs : List String := []
  componentType : String := "content"
deriving DecidableEq, Inhabited

/-- `MyGovScraper.extractStandaloneFragment` (`scraper/scraper.js` lines
449–474): `id = md5(url + $elem.text())`, a synthesized title, and no
`page_url` field. -/
def extractStandaloneFragment (md5 : String → String) (inp : StandaloneIn) : Fragment :=
  let id := md5 (inp.url ++ inp.elemText)
  let title := jsOrS inp.embeddedHeadingText (jsOrS inp.ariaLabel "Important Information")
  { id := id,
    url := inp.url ++ "#" ++ id,
    page_url := none,
    anchor := none,
    title := title,
    content_text := jsTrim inp.elemText,
    content_html := inp.elemHtml,
    hierarchy_lvl0 := jsOrS (inp.breadcrumbs.getLastD "") (jsOrS title "Content"),
    hierarchy_lvl1 := none, hierarchy_lvl2 := none, hierarchy_lvl3 := none,
    page_hierarchy := inp.breadcrumbs,
    life_events := [], categories := [], states := [],
    provider := none, governance := none, stage := none, stage_variant := none,
    search_keywords := [],
    content_hash := none,
    component_type := inp.componentType,
    has_form := false, has_checklist := false,
    crawl_version := 0, last_seen_at := 0 }

/-- The taxonomy facets `enrichWithTaxonomy` attaches to a fragment. -/
structure Enrichment where
  life_events : List String := []
  categories : List String := []
  states : List String := []
  provider : Option String := none
  governance : Option String := none
  stage : Option String := none
  stage_variant : Option String := none
  search_keywords : List String := []
deriving DecidableEq, Inhabited

/-- Modelled from the spec: `enrichWithTaxonomy` lives in
`scraper/taxonomies.js`, which is not among the sources.  Per §4.3 of the
spec it classifies the fragment's title and text against the read-only
Taxonomy Reference and returns the category set, provider + governance
label, state set and related facets; it does not alter the fragment's
identity or URL fields.  The classification result is abstracted as an
`Enrichment` record. -/
def enrichWithTaxonomy (e : Enrichment) (f : Fragment) : Fragment :=
  { f with
    life_events := e.life_events, categories := e.categories, states := e.states,
    provider := e.provider, governance := e.governance,
    stage := e.stage, stage_variant := e.stage_variant,
    search_keywords := e.search_keywords }

/-- The versioning fields `MyGovScraper.extractFragments` spreads onto an
enriched heading fragment (`scraper/scraper.js` lines 357–363):
`crawl_version`, `last_seen_at`, and `page_url = baseUrl(url)`. -/
def finalizeHeadingFragment (crawlVersion lastSeenAt : Nat) (url : String)
    (f : Fragment) : Fragment :=
  { f with
    crawl_version := crawlVersion, last_seen_at := lastSeenAt,
    page_url := some (baseUrl url) }

/-- The versioning fields spread onto an enriched standalone fragment
(`scraper/scraper.js` lines 392–397): `crawl_version` and `last_seen_at`
only — no `page_url` field is added. -/
def finalizeStandaloneFragment (crawlVersion lastSeenAt : Nat) (f : Fragment) : Fragment :=
  { f with crawl_version := crawlVersion, last_seen_at := lastSeenAt }

/-- The fragment-collection prune filter of `MyGovScraper.pruneStaleDocs`
(`scraper/scraper.js` line 742):
`crawl_version:<CRAWL_VERSION && page_url:*targetHost*`, i.e. the
document's generation is stale and its `page_url` contains the target
host as a substring.  A document without the optional `page_url` field
never matches. -/
def fragPruneFilter (currentVersion : Nat) (targetHost : String) (f : Fragment) : Bool :=
  f.crawl_version < currentVersion &&
    (match f.page_url with
     | some p => containsSub p targetHost
     | none => false)

/-- The delete issued on `content_fragments` by `pruneStaleDocs`: every
stored fragment matching `fragPruneFilter` is removed. -/
def pruneStaleFragments (currentVersion : Nat) (targetHost : String)
    (docs : List Fragment) : List Fragment :=
  docs.filter (fun f => !fragPruneFilter currentVersion targetHost f)

/-- JS `Set.prototype.add` on a set represented as its insertion-ordered
list of distinct elements. -/
def setAdd (l : List String) (x : String) : List String :=
  if x ∈ l then l else l ++ [x]

/-- Add every element of `xs` to the set `l` (a `forEach(x => set.add(x))`). -/
def setAddAll (l : List String) (xs : List String) : List String := xs.foldl setAdd l

/-- `if (v) set.add(v)` for a possibly-absent string field: absent and
empty-string values are falsy and are not added. -/
def setAddOpt (l : List String) (o : Option String) : List String :=
  match o with
  | some s => if s = "" then l else setAdd l s
  | none => l

/-- JS `map.set(k, (map.get(k) || 0) + 1)` on a `Map` represented as its
insertion-ordered association list. -/
def bumpCount : List (String × Nat) → String → List (String × Nat)
  | [], k => [(k, 1)]
  | (a, n) :: rest, k =>
    if a = k then (a, n + 1) :: rest else (a, n) :: bumpCount rest k

/-- The grouping key of `buildPageDocs`:
`f.page_url || baseUrl(f.url || '')` (`scraper/scraper.js` line 571). -/
def pageKey (f : Fragment) : String := jsOrO f.page_url (baseUrl f.url)

/-- The per-page accumulator created by `buildPageDocs` when a key is
first seen (`scraper/scraper.js` lines 573–594).  The `out_links` /
`out_link_tokens` sets (built by a regex scan over each fragment's
`content_html`) are not modelled. -/
structure PageAcc where
  url : String := ""
  host : String := ""
  fragment_ids : List String := []
  fragment_count : Nat := 0
  life_events : List String := []
  categories : List String := []
  states : List String := []
  provider : List String := []
  governance : List String := []
  stage : List String := []
  stage_variant : List String := []
  content_text : String := ""
  keywords : List String := []
  lvl0Counts : List (String × Nat) := []
deriving DecidableEq, Inhabited

/-- The fresh accumulator for page key `page`:
`host = new URL(page).hostname` (or `""` on a parse failure) and empty
sets. -/
def initAcc (page : String) : PageAcc := { url := page, host := hostOf page }

/-- The body of the `for (const f of this.fragments)` loop of
`buildPageDocs` (`scraper/scraper.js` lines 596–631) applied to the
accumulator of the fragment's own page key. -/
def addFragment (acc : PageAcc) (f : Fragment) : PageAcc :=
  { acc with
    fragment_ids := acc.fragment_ids ++ [f.id],
    fragment_count := acc.fragment_count + 1,
    life_events := setAddAll acc.life_events f.life_events,
    categories := setAddAll acc.categories f.categories,
    states := setAddAll acc.states f.states,
    provider := setAddOpt acc.provider f.provider,
    governance := setAddOpt acc.governance f.governance,
    stage := setAddOpt acc.stage f.stage,
    stage_variant := setAddOpt acc.stage_variant f.stage_variant,
    lvl0Counts :=
      (let lvl0 := jsOrS f.hierarchy_lvl0 f.title
       if lvl0 = "" then acc.lvl0Counts else bumpCount acc.lvl0Counts lvl0),
    content_text :=
      (if acc.content_text.length < 40000 then
        acc.content_text ++ (if acc.content_text = "" then "" else "\n")
          ++ f.content_text.take 4000
      else acc.content_text),
    keywords := setAddAll acc.keywords f.search_keywords }

/-- One iteration of the `buildPageDocs` loop on the whole `Map`
(represented as an insertion-ordered association list): skip fragments
with an empty key, update the existing accumulator of the key, or append
a fresh one. -/
def buildStep (pages : List (String × PageAcc)) (f : Fragment) : List (String × PageAcc) :=
  let k := pageKey f
  if k = "" then pages
  else if pages.any (fun p => p.1 = k) then
    pages.map (fun p => if p.1 = k then (p.1, addFragment p.2 f) else p)
  else pages ++ [(k, addFragment (initAcc k) f)]

/-- The `pages` map after the fragment loop of `buildPageDocs`. -/
def buildPagesMap (frags : List Fragment) : List (String × PageAcc) :=
  frags.foldl buildStep []

/-- Title selection of `buildPageDocs` (line 638):
`Array.from(counts.entries()).sort((a,b)=>b[1]-a[1])[0][0]` — a stable
descending sort by count, so the result is the earliest-inserted entry
among those with the maximal count (`""` models the `undefined` title of
a page with no counted `lvl0`). -/
def pickTitle (counts : List (String × Nat)) : String :=
  match counts with
  | [] => ""
  | c :: rest => (rest.foldl (fun best p => if best.2 < p.2 then p else best) c).1

/-- A `content_pages` document as produced by `buildPageDocs`
(`scraper/scraper.js` lines 642–663).  The hashed floating-point
`embedding` (a pure function of `content_text`) and the
`out_links`/`out_link_tokens` arrays are not modelled. -/
structure PageDoc where
  id : String := ""
  url : String := ""
  host : String := ""
  title : String := ""
  fragment_ids : List String := []
  fragment_count : Nat := 0
  life_events : List String := []
  categories : List String := []
  states : List String := []
  provider : List String := []
  governance : List String := []
  stage : String := ""
  stage_variant : String := ""
  content_text : String := ""
  keywords : List String := []
  crawl_version : Nat := 0
  last_seen_at : Nat := 0
deriving DecidableEq, Inhabited

/-- The finalization of one accumulator into a page document
(`scraper/scraper.js` lines 635–663): `id` and `url` are the page key,
`stage`/`stage_variant` are the first-inserted element of their sets
(`Array.from(set)[0] || ''`), and the title is picked by `pickTitle`. -/
def finalizePage (crawlVersion lastSeenAt : Nat) (acc : PageAcc) : PageDoc :=
  { id := acc.url, url := acc.url, host := acc.host,
    title := pickTitle acc.lvl0Counts,
    fragment_ids := acc.fragment_ids, fragment_count := acc.fragment_count,
    life_events := acc.life_events, categories := acc.categories,
    states := acc.states, provider := acc.provider, governance := acc.governance,
    stage := acc.stage.headD "", stage_variant := acc.stage_variant.headD "",
    content_text := acc.content_text, keywords := acc.keywords,
    crawl_version := crawlVersion, last_seen_at := lastSeenAt }

/-- `MyGovScraper.buildPageDocs` (`scraper/scraper.js` lines 568–666):
fold the run's fragments into the per-key map, then finalize each
accumulator in key insertion order.  `crawlVersion`/`lastSeenAt` stand
for the module constants `CRAWL_VERSION` and `Date.now()`. -/
def buildPageDocs (crawlVersion lastSeenAt : Nat) (frags : List Fragment) : List PageDoc :=
  (buildPagesMap frags).map (fun p => finalizePage crawlVersion lastSeenAt p.2)

/-- Insert a key at the back unless already present (first-occurrence
order of `Map` keys). -/
def insertKey (ks : List String) (k : String) : List String :=
  if k ∈ ks then ks else ks ++ [k]

/-- One step of the key-collection fold: skip an empty key, otherwise
record its first occurrence. -/
def pageKeysStep (ks : List String) (f : Fragment) : List String :=
  let k := pageKey f
  if k = "" then ks else insertKey ks k

/-- The page keys of a fragment list in first-occurrence order, skipping
fragments whose key is empty — the key set of the `buildPageDocs` map. -/
def pageKeys (frags : List Fragment) : List String :=
  frags.foldl pageKeysStep []

/-- The accumulator a single page key ends up with: the fold of
`addFragment` over exactly the fragments carrying that key. -/
def buildAccFor (frags : List Fragment) (k : String) : PageAcc :=
  (frags.filter (fun f => pageKey f = k)).foldl addFragment (initAcc k)

/-- The pages-collection prune filter of `MyGovScraper.pruneStaleDocs`
(`scraper/scraper.js` line 754):
`crawl_version:<CRAWL_VERSION && host:=targetHost` — an exact host
match. -/
def pagePruneFilter (currentVersion : Nat) (targetHost : String) (d : PageDoc) : Bool :=
  d.crawl_version < currentVersion && d.host = targetHost

/-- The delete issued on `content_pages` by `pruneStaleDocs`. -/
def pruneStalePages (currentVersion : Nat) (targetHost : String)
    (docs : List PageDoc) : List PageDoc :=
  docs.filter (fun d => !pagePruneFilter currentVersion targetHost d)

/-- The mutable crawl state read and written by `MyGovScraper.crawl`:
the `visited` URL set, and counters for the page-fetch attempts
(`page.goto` calls) and recorded failures (`monitor.recordCrawl(url,
false)`). -/
structure CrawlState where
  visited : List String := []
  fetchAttempts : Nat := 0
  failures : Nat := 0
deriving DecidableEq, Inhabited

/-- The retry path of `MyGovScraper.crawl` (`scraper/scraper.js` lines
182–287) for a single URL: the guard
`visited.has(url) || depth > maxDepth` returns immediately; otherwise
the URL is added to `visited` **before** the fetch is attempted; on a
fetch error with `retries > 0` the method recurses on itself with
`retries - 1` (the `robots.isAllowed` guard, always true here, and the
rate-limit delay are not modelled; link scheduling is modelled
separately by `crawlFetches`). -/
def crawlRetry (fetchOk : String → Bool) (maxDepth : Nat) (url : String)
    (depth : Nat) : Nat → CrawlState → CrawlState
  | retries, st =>
    if st.visited.contains url || maxDepth < depth then st
    else
      let st1 : CrawlState :=
        { st with visited := st.visited ++ [url], fetchAttempts := st.fetchAttempts + 1 }
      if fetchOk url then st1
      else
        let st2 := { st1 with failures := st1.failures + 1 }
        match retries with
        | 0 => st2
        | r + 1 => crawlRetry fetchOk maxDepth url depth r st2

/-- The crawl bounds configuration (`config/scraper-config.js`). -/
structure Cfg where
  maxDepth : Nat := 0
  maxLinksPerPage : Nat := 0
  maxPages : Nat := 0
deriving DecidableEq, Inhabited

/-- The link-following traversal of `MyGovScraper.crawl` with every
fetch succeeding, sequentialized (the `p-limit` pool only bounds
concurrency, not which pages get fetched): fetch the page, then schedule
the page's links — `links url` stands for the same-origin, pattern- and
extension-filtered candidate list, of which relevance ordering keeps the
top `cfg.maxLinksPerPage` (`.slice(0, this.cfg.maxLinksPerPage)`) —
at `depth + 1`, guarded only by the `visited` set and
`depth > cfg.maxDepth`.  `cfg.maxPages` is read nowhere in `crawl`; its
only use in the source is `sitemapUrls.slice(0, this.cfg.maxPages)` in
`run`.  `gas` is a structural-recursion bound; it never runs out when it
exceeds the remaining depth budget, since every child call is at a
strictly greater depth. -/
def crawlFetches (links : String → List String) (cfg : Cfg) :
    Nat → String → Nat → CrawlState → CrawlState
  | 0, _, _, st => st
  | gas + 1, url, depth, st =>
    if st.visited.contains url || cfg.maxDepth < depth then st
    else
      let st1 : CrawlState :=
        { st with visited := st.visited ++ [url], fetchAttempts := st.fetchAttempts + 1 }
      if depth < cfg.maxDepth then
        ((links url).take cfg.maxLinksPerPage).foldl
          (fun s l => crawlFetches links cfg gas l (depth + 1) s) st1
      else st1

/-- A whole crawl from a seed URL at depth 0 on a fresh state. -/
def crawlRun (links : String → List String) (cfg : Cfg) (startUrl : String) : CrawlState :=
  crawlFetches links cfg (cfg.maxDepth + 1) startUrl 0 {}

/-- The per-batch write of `MyGovScraper.indexFragments` /
`indexPages` (`scraper/scraper.js` lines 519–564 and 706–720):
`importResult batch` is the batched import call — `some okDocs` is a
response listing the successfully imported documents, `none` is a thrown
batch error.  On a thrown error the code falls back to one `upsert` per
document of the batch; a document whose individual upsert fails is
logged and skipped (no retry). -/
def writtenOfBatch {α : Type} (importResult : List α → Option (List α))
    (upsertOk : α → Bool) (batch : List α) : List α :=
  match importResult batch with
  | some okDocs => okDocs
  | none => batch.filter upsertOk

/-- Structural helper for `chunk100`; the fuel starts at the list length
and each step consumes at least one element, so the `0, _` case is
unreachable for the initial fuel. -/
def chunk100Aux {α : Type} : Nat → List α → List (List α)
  | _, [] => []
  | 0, _ => []
  | fuel + 1, a :: rest => ((a :: rest).take 100) :: chunk100Aux fuel ((a :: rest).drop 100)

/-- The batches of 100 documents formed by the
`for (let i = 0; i < docs.length; i += 100)` loops. -/
def chunk100 {α : Type} (l : List α) : List (List α) := chunk100Aux l.length l

/-- All documents an indexing run writes: the concatenation of every
batch's written documents. -/
def indexWritten {α : Type} (importResult : List α → Option (List α))
    (upsertOk : α → Bool) (docs : List α) : List α :=
  ((chunk100 docs).map (writtenOfBatch importResult upsertOk)).flatten

/-- A heading of a rendered page in document order: its level (1–4), its
raw text, and the text of its content span.  The headings are taken to
be sibling elements, as in the crawled service pages, so that
`$heading.prevAll('h2')` ranges over the earlier entries of the list. -/
structure PageHeading where
  level : Nat := 1
  text : String := ""
  content : String := ""
deriving DecidableEq, Inhabited

/-- `$heading.prevAll('hN').first().text()` for the `i`-th heading of a
page of sibling headings: the text of the nearest preceding heading of
level `lvl`, or `""` when the selection is empty. -/
def nearestBefore (lvl : Nat) (page : List PageHeading) (i : Nat) : String :=
  match (page.take i).reverse.find? (fun h => h.level = lvl) with
  | some h => h.text
  | none => ""

/-- The `FragIn` record `MyGovScraper.extractFragments` hands to
`extractFragment` for the `i`-th heading of a page. -/
def fragInAt (page : List PageHeading) (i : Nat) (url : String)
    (breadcrumbs : List String) (pageTitle : String) : FragIn :=
  let h := page.getD i default
  { url := url, headingText := h.text, contentText := h.content,
    breadcrumbs := breadcrumbs, pageTitle := pageTitle,
    headingLevel := h.level,
    prevH2Text := nearestBefore 2 page i, prevH3Text := nearestBefore 3 page i }

/-- The fixture page of the hierarchy claim: H1 "Carers",
H2 "Eligibility", H3 "How to apply", in document order. -/
def carersPage : List PageHeading :=
  [{ level := 1, text := "Carers", content := "About carers" },
   { level := 2, text := "Eligibility", content := "Who can get it" },
   { level := 3, text := "How to apply", content := "Steps to apply" }]

/-- The fragment extracted for the H3 heading of `carersPage`. -/
def carersH3Frag (md5 sha : String → String) (url : String)
    (breadcrumbs : List String) (pageTitle : String) : Fragment :=
  extractFragment md5 sha (fragInAt carersPage 2 url breadcrumbs pageTitle)

/-- A stand-in digest used in concrete evaluations; no claim depends on
properties of the digest function itself. -/
def digestA : String → String := fun s => "hA:" ++ s

/-- A second stand-in digest, kept distinct from `digestA` so that
theorems quantifying over the digest are exercised at two different
functions. -/
def digestB : String → String := fun s => "hB:" ++ s

/-- A stored fragment from a foreign host whose URL nevertheless
contains `"my.gov.au"` as a substring, stamped with a stale generation. -/
def staleForeignFrag : Fragment :=
  { id := "f1", url := "https://my.gov.au.evil.example/page#f1",
    page_url := some "https://my.gov.au.evil.example/page",
    content_text := "not a my gov page", crawl_version := 1 }

/-- The link sets of the concrete crawl used to exercise the page-count
bound: the seed links to two same-origin pages, which link nowhere. -/
def cexLinks : String → List String := fun u =>
  if u = "https://my.gov.au/" then ["https://my.gov.au/a", "https://my.gov.au/b"] else []

/-- A batched import call that always throws. -/
def cexImport : List String → Option (List String) := fun _ => none

/-- A per-document upsert that fails exactly on the document `"bad"`. -/
def cexUpsertOk : String → Bool := fun d => d ≠ "bad"

/-- First fragment of the aggregation fixture: page
`https://my.gov.au/carers`, with its own stage, stage variant, `lvl0`
and content text. -/
def cFragA : Fragment :=
  { id := "fa", url := "https://a/p#a",
    page_url := some "https://a/p",
    title := "T1", content_text := "alpha",
    hierarchy_lvl0 := "A",
    life_events := ["le1"], categories := ["c1"],
    states := ["NSW"], provider := some "SA",
    governance := some "Fed",
    stage := some "s1", stage_variant := some "v1",
    search_keywords := ["k1"], crawl_version := 2 }

/-- Second fragment of the aggregation fixture: same page as `cFragA`
but different stage, stage variant, `lvl0` and content text. -/
def cFragB : Fragment :=
  { id := "fb", url := "https://a/p#b",
    page_url := some "https://a/p",
    title := "T2", content_text := "beta",
    hierarchy_lvl0 := "B",
    life_events := ["le2"], categories := ["c2"],
    states := ["VIC"], provider := some "SA",
    governance := some "State",
    stage := some "s2", stage_variant := some "v2",
    search_keywords := ["k2"], crawl_version := 2 }

/-- The page key shared by `cFragA` and `cFragB`. -/
def permPageKey : String := "https://a/p"

/-- The page documents built from the fixture fragments in one order. -/
def permDocsA : List PageDoc := buildPageDocs 2 5 [cFragA, cFragB]

/-- The page documents built from the same fragments in the opposite
order. -/
def permDocsB : List PageDoc := buildPageDocs 2 5 [cFragB, cFragA]

/-- The page document of `permDocsA`, written as the finalized
accumulator of its key. -/
def permDocA : PageDoc := finalizePage 2 5 (buildAccFor [cFragA, cFragB] permPageKey)

/-- The page document of `permDocsB`, written as the finalized
accumulator of its key. -/
def permDocB : PageDoc := finalizePage 2 5 (buildAccFor [cFragB, cFragA] permPageKey)

/-- Heading-extraction input of the identity fixture, first run:
breadcrumbs, page title and whitespace differ from the second run, the
`(url, trimmed heading, trimmed content)` triple does not. -/
def wFragIn1 : FragIn :=
  { url := "https://my.gov.au/carers", headingText := "  Eligibility ",
    contentText := "Who can get it", breadcrumbs := ["Home"],
    pageTitle := "Run one title", headingLevel := 2 }

/-- Heading-extraction input of the identity fixture, second run. -/
def wFragIn2 : FragIn :=
  { url := "https://my.gov.au/carers", headingText := "Eligibility",
    contentText := "  Who can get it  ", breadcrumbs := [],
    pageTitle := "Run two title", headingLevel := 3 }

/-- Standalone-extraction input of the identity fixture, first run. -/
def wStand1 : StandaloneIn :=
  { url := "https://my.gov.au/carers", elemText := "Beware of scams",
    ariaLabel := "warning", breadcrumbs := ["Home"] }

/-- Standalone-extraction input of the identity fixture, second run:
same url and element text, different surrounding metadata. -/
def wStand2 : StandaloneIn :=
  { url := "https://my.gov.au/carers", elemText := "Beware of scams",
    embeddedHeadingText := "Scams", breadcrumbs := [] }

theorem trimR_eq_nil_iff (l : List Char) : trimR l = [] ↔ ∀ c ∈ l, jsIsSpace c := by
  simp [trimR, List.dropWhile_eq_nil_iff]

theorem allSpace_of_jsTrim_empty (s : String) (h : jsTrim s = "") :
    ∀ c ∈ s.data, jsIsSpace c := by
  have hl : trimR (trimL s.data) = [] := congrArg String.data h
  intro c hc
  rw [← List.takeWhile_append_dropWhile (p := jsIsSpace) (l := s.data)] at hc
  rcases List.mem_append.mp hc with h1 | h2
  · exact List.mem_takeWhile_imp h1
  · exact (trimR_eq_nil_iff _).mp hl c h2

theorem toLower_of_space (c : Char) (h : jsIsSpace c = true) : c.toLower = c := by
  have hc : ((c = ' ' ∨ c = '\t') ∨ c = '\n') ∨ c = '\r' := by
    simpa [jsIsSpace] using h
  rcases hc with ((rfl | rfl) | rfl) | rfl <;> decide

theorem collapseAux_space (l : List Char) (h : ∀ c ∈ l, jsIsSpace c) :
    ∀ b, ∀ c ∈ collapseAux b l, jsIsSpace c := by
  induction l with
  | nil => intro b c hc; simp [collapseAux] at hc
  | cons a as ih =>
    intro b c hc
    have ha : jsIsSpace a := h a (by simp)
    have has : ∀ x ∈ as, jsIsSpace x := fun x hx => h x (by simp [hx])
    unfold collapseAux at hc
    rw [if_pos ha] at hc
    cases b with
    | true => exact ih has true c hc
    | false =>
      rcases List.mem_cons.mp hc with rfl | hc'
      · decide
      · exact ih has true c hc'

theorem normalizeContent_of_allSpace (s : String) (h : ∀ c ∈ s.data, jsIsSpace c) :
    normalizeContent s = "" := by
  unfold normalizeContent
  dsimp only
  have hlow : ∀ c ∈ s.data.map Char.toLower, jsIsSpace c := by
    intro c hc
    rcases List.mem_map.mp hc with ⟨c0, hc0, rfl⟩
    rw [toLower_of_space c0 (h c0 hc0)]
    exact h c0 hc0
  have hdep : ∀ c ∈ (s.data.map Char.toLower).map
      (fun c => if jsWordChar c || jsIsSpace c then c else ' '), jsIsSpace c := by
    intro c hc
    rcases List.mem_map.mp hc with ⟨c0, hc0, rfl⟩
    have h0 := hlow c0 hc0
    rw [if_pos (by simp [h0])]
    exact h0
  have hcol := collapseAux_space _ hdep false
  have : trimL (collapseAux false ((s.data.map Char.toLower).map
      (fun c => if jsWordChar c || jsIsSpace c then c else ' '))) = [] := by
    simp only [trimL]
    exact List.dropWhile_eq_nil_iff.mpr hcol
  rw [this]
  rfl

theorem jsTrim_empty_normalize (s : String) (h : jsTrim s = "") :
    normalizeContent s = "" :=
  normalizeContent_of_allSpace s (allSpace_of_jsTrim_empty s h)

theorem calculateContentHash_eq (sha : String → String) (t : String) :
    calculateContentHash sha t =
      if normalizeContent t = "" then none else some (sha (normalizeContent t)) := by
  unfold calculateContentHash
  by_cases ht : jsTrim t = ""
  · rw [if_pos ht, if_pos (jsTrim_empty_normalize t ht)]
  · rw [if_neg ht]

/-- C8: `content_hash` is a function of the whitespace/punctuation
normalized content text alone — any two texts with the same
normalization hash identically — and it is `none` exactly when the text
is empty or normalizes to the empty string. -/
theorem contentHash_normalization (sha : String → String) (t₁ t₂ : String)
    (h : normalizeContent t₁ = normalizeContent t₂) :
    calculateContentHash sha t₁ = calculateContentHash sha t₂ ∧
    (normalizeContent t₁ = "" → calculateContentHash sha t₁ = none) := by
  constructor
  · rw [calculateContentHash_eq, calculateContentHash_eq, h]
  · intro h0
    rw [calculateContentHash_eq, if_pos h0]

/-- Witness for C8 at two concrete texts with equal normalization. -/
theorem contentHash_normalization_witness :
    calculateContentHash digestA "Hello,  WORLD!" = calculateContentHash digestA " hello world " ∧
    (normalizeContent "Hello,  WORLD!" = "" →
      calculateContentHash digestA "Hello,  WORLD!" = none) :=
  contentHash_normalization digestA "Hello,  WORLD!" " hello world " (by decide)

/-- C2: the fragment-collection prune filter
`crawl_version:<V && page_url:*targetHost*` matches by substring, so a
stale fragment of the foreign host `my.gov.au.evil.example` is deleted
by the prune pass for target host `my.gov.au`, contradicting the
host-scoping requirement. -/
theorem fragPrune_deletes_foreign_host :
    hostOf "https://my.gov.au.evil.example/page" ≠ "my.gov.au" ∧
    fragPruneFilter 2 "my.gov.au" staleForeignFrag = true ∧
    pruneStaleFragments 2 "my.gov.au" [staleForeignFrag] = [] := by decide

/-- C3: `crawl` adds the URL to `visited` before fetching, so the
recursive retry call returns at the `visited` guard: with 3 retries
configured and every fetch failing, the page is fetched exactly once
and one failure is recorded — the retries never re-attempt the fetch. -/
theorem crawlRetry_single_attempt :
    (crawlRetry (fun _ => false) 3 "https://my.gov.au/payments" 0 3 {}).fetchAttempts = 1 ∧
    (crawlRetry (fun _ => false) 3 "https://my.gov.au/payments" 0 3 {}).failures = 1 := by
  decide

/-- C4: `cfg.maxPages` bounds nothing in the link-following crawl: with
`maxPages = 1`, a seed page with two same-origin links produces three
page fetches. -/
theorem crawl_ignores_maxPages :
    (crawlRun cexLinks { maxDepth := 1, maxLinksPerPage := 2, maxPages := 1 }
      "https://my.gov.au/").fetchAttempts = 3 ∧
    ({ maxDepth := 1, maxLinksPerPage := 2, maxPages := 1 } : Cfg).maxPages <
      (crawlRun cexLinks { maxDepth := 1, maxLinksPerPage := 2, maxPages := 1 }
        "https://my.gov.au/").fetchAttempts := by
  decide

/-- C6: the fragment `id` is a function of `(url, trimmed heading text,
trimmed content text)` only — extractions that agree on this triple get
the same `id` whatever their breadcrumbs, page title, heading level or
content-hash digest; likewise the standalone `id` is a function of
`(url, element text)`. -/
theorem fragmentId_deterministic (md5 sha₁ sha₂ : String → String) (i₁ i₂ : FragIn)
    (s₁ s₂ : StandaloneIn)
    (hu : i₁.url = i₂.url) (hh : jsTrim i₁.headingText = jsTrim i₂.headingText)
    (hc : jsTrim i₁.contentText = jsTrim i₂.contentText)
    (hsu : s₁.url = s₂.url) (hst : s₁.elemText = s₂.elemText) :
    (extractFragment md5 sha₁ i₁).id = (extractFragment md5 sha₂ i₂).id ∧
    (extractStandaloneFragment md5 s₁).id = (extractStandaloneFragment md5 s₂).id := by
  refine ⟨?_, ?_⟩ <;>
    simp [extractFragment, extractStandaloneFragment, hu, hh, hc, hsu, hst]

/-- Witness for C6: two extraction runs differing in breadcrumbs, page
title, heading level, whitespace and digest parameter produce equal ids. -/
theorem fragmentId_deterministic_witness :
    (extractFragment digestA digestA wFragIn1).id = (extractFragment digestA digestB wFragIn2).id ∧
    (extractStandaloneFragment digestA wStand1).id = (extractStandaloneFragment digestA wStand2).id :=
  fragmentId_deterministic digestA digestA digestB wFragIn1 wFragIn2 wStand1 wStand2
    (by decide) (by decide) (by decide) (by decide) (by decide)

/-- C9: a heading fragment is finalized with
`page_url = baseUrl(url)` (the canonical URL), a standalone fragment is
finalized without any `page_url`, and consequently the fragment prune
filter — which matches on `page_url` — never covers a standalone
fragment. -/
theorem headingFragment_pageUrl_standalone_unpruned (md5 sha : String → String)
    (e e' : Enrichment) (inp : FragIn) (sinp : StandaloneIn)
    (v t curV : Nat) (url targetHost : String) :
    (finalizeHeadingFragment v t url
        (enrichWithTaxonomy e (extractFragment md5 sha inp))).page_url = some (baseUrl url) ∧
    (finalizeStandaloneFragment v t
        (enrichWithTaxonomy e' (extractStandaloneFragment md5 sinp))).page_url = none ∧
    fragPruneFilter curV targetHost
      (finalizeStandaloneFragment v t
        (enrichWithTaxonomy e' (extractStandaloneFragment md5 sinp))) = false := by
  refine ⟨rfl, rfl, ?_⟩
  simp [fragPruneFilter, finalizeStandaloneFragment, enrichWithTaxonomy,
    extractStandaloneFragment]

/-- C7: when the batched import of a batch throws, the fallback writes
each individually-succeeding document of the batch (one bad document
never blocks the others), and an individually-failing document is
skipped, not written. -/
theorem batchFallback_isolates_bad_docs {α : Type} (importResult : List α → Option (List α))
    (upsertOk : α → Bool) (docs batch : List α) (d : α)
    (hb : batch ∈ chunk100 docs) (hfail : importResult batch = none) (hd : d ∈ batch) :
    (upsertOk d = true → d ∈ indexWritten importResult upsertOk docs) ∧
    (upsertOk d = false → d ∉ writtenOfBatch importResult upsertOk batch) := by
  constructor
  · intro hok
    have hw : d ∈ writtenOfBatch importResult upsertOk batch := by
      unfold writtenOfBatch
      rw [hfail]
      exact List.mem_filter.mpr ⟨hd, hok⟩
    unfold indexWritten
    exact List.mem_flatten.mpr ⟨_, List.mem_map_of_mem _ hb, hw⟩
  · intro hbad hmem
    unfold writtenOfBatch at hmem
    rw [hfail] at hmem
    have hok := (List.mem_filter.mp hmem).2
    rw [hbad] at hok
    exact Bool.false_ne_true hok

/-- Witness for C7: a batch whose import throws and which contains one
individually-failing document still gets its good documents written. -/
theorem batchFallback_isolates_bad_docs_witness :
    (cexUpsertOk "good1" = true →
      "good1" ∈ indexWritten cexImport cexUpsertOk ["good1", "bad", "good2"]) ∧
    (cexUpsertOk "good1" = false →
      "good1" ∉ writtenOfBatch cexImport cexUpsertOk ["good1", "bad", "good2"]) :=
  batchFallback_isolates_bad_docs cexImport cexUpsertOk ["good1", "bad", "good2"]
    ["good1", "bad", "good2"] "good1" (by decide) rfl (by decide)

theorem jsOrS_ne_empty_of (a b c : String) (hc : c ≠ "") : jsOrS a (jsOrS b c) ≠ "" := by
  unfold jsOrS
  split_ifs <;> simp_all

theorem hierarchyFor_level3 (ht : String) (bc : List String) (pt p2 p3 : String) :
    hierarchyFor 3 ht bc pt p2 p3 =
      { lvl0 := jsOrS (bc.getLastD "") (jsOrS pt "Content"),
        lvl1 := some (jsOrS p2 "Section"),
        lvl2 := some (jsOrS ht "Subsection"),
        lvl3 := none } := by
  unfold hierarchyFor
  dsimp only
  rw [if_neg (by decide : ¬(3 = 1)), if_neg (by decide : ¬(3 = 2)), if_pos rfl]
  dsimp only
  rw [if_neg (jsOrS_ne_empty_of _ _ _ (by decide))]

/-- C5 counterexample: on a page with sibling headings H1 "Carers",
H2 "Eligibility", H3 "How to apply", no breadcrumbs and page title
"Home", the H3 fragment's `hierarchy_lvl0` is `"Home"` — the code takes
`lvl0` from the breadcrumb/page title, never from the preceding H1, so
the claimed `lvl0 = "Carers"` fails. -/
theorem carersH3_lvl0_not_from_h1 :
    (carersH3Frag digestA digestB "https://my.gov.au/carers" [] "Home").hierarchy_lvl1 =
      some "Eligibility" ∧
    (carersH3Frag digestA digestB "https://my.gov.au/carers" [] "Home").hierarchy_lvl2 =
      some "How to apply" ∧
    (carersH3Frag digestA digestB "https://my.gov.au/carers" [] "Home").hierarchy_lvl0 =
      "Home" ∧
    ("Home" : String) ≠ "Carers" := by decide

/-- C5 (amended): for the page H1 "Carers", H2 "Eligibility",
H3 "How to apply", the H3 fragment always has `lvl1 = "Eligibility"` and
`lvl2 = "How to apply"`, while `lvl0` is the last breadcrumb, else the
page title, else `"Content"` — it equals `"Carers"` exactly when the
breadcrumb or page title supplies that value, not because of the H1. -/
theorem carersH3_hierarchy (md5 sha : String → String) (url pageTitle : String)
    (breadcrumbs : List String) :
    (carersH3Frag md5 sha url breadcrumbs pageTitle).hierarchy_lvl1 = some "Eligibility" ∧
    (carersH3Frag md5 sha url breadcrumbs pageTitle).hierarchy_lvl2 = some "How to apply" ∧
    (carersH3Frag md5 sha url breadcrumbs pageTitle).hierarchy_lvl0 =
      jsOrS (breadcrumbs.getLastD "") (jsOrS pageTitle "Content") := by
  refine ⟨rfl, rfl, ?_⟩
  show (hierarchyFor 3 (jsTrim "How to apply") breadcrumbs pageTitle "Eligibility" "").lvl0 = _
  rw [hierarchyFor_level3]

theorem foldl_addFragment_url (l : List Fragment) (acc : PageAcc) :
    (l.foldl addFragment acc).url = acc.url := by
  induction l generalizing acc with
  | nil => rfl
  | cons f fs ih => rw [List.foldl_cons, ih]; rfl

theorem foldl_addFragment_host (l : List Fragment) (acc : PageAcc) :
    (l.foldl addFragment acc).host = acc.host := by
  induction l generalizing acc with
  | nil => rfl
  | cons f fs ih => rw [List.foldl_cons, ih]; rfl

theorem foldl_addFragment_ids (l : List Fragment) (acc : PageAcc) :
    (l.foldl addFragment acc).fragment_ids = acc.fragment_ids ++ l.map Fragment.id := by
  induction l generalizing acc with
  | nil => simp
  | cons f fs ih =>
    rw [List.foldl_cons, ih]
    show (acc.fragment_ids ++ [f.id]) ++ fs.map Fragment.id = _
    simp

theorem foldl_addFragment_count (l : List Fragment) (acc : PageAcc) :
    (l.foldl addFragment acc).fragment_count = acc.fragment_count + l.length := by
  induction l generalizing acc with
  | nil => simp
  | cons f fs ih =>
    rw [List.foldl_cons, ih]
    show acc.fragment_count + 1 + fs.length = _
    simp
    omega

theorem mem_setAdd (l : List String) (y x : String) :
    x ∈ setAdd l y ↔ x ∈ l ∨ x = y := by
  unfold setAdd
  split_ifs with h
  · constructor
    · exact Or.inl
    · rintro (hx | rfl)
      · exact hx
      · exact h
  · simp

theorem mem_foldl_setAdd (xs l : List String) (x : String) :
    x ∈ xs.foldl setAdd l ↔ x ∈ l ∨ x ∈ xs := by
  induction xs generalizing l with
  | nil => simp
  | cons y ys ih =>
    rw [List.foldl_cons, ih, mem_setAdd, List.mem_cons]
    tauto

theorem mem_setAddAll (l xs : List String) (x : String) :
    x ∈ setAddAll l xs ↔ x ∈ l ∨ x ∈ xs := mem_foldl_setAdd xs l x

theorem mem_setAddOpt (l : List String) (o : Option String) (x : String) :
    x ∈ setAddOpt l o ↔ x ∈ l ∨ (o = some x ∧ x ≠ "") := by
  cases o with
  | none => simp [setAddOpt]
  | some s =>
    show x ∈ (if s = "" then l else setAdd l s) ↔ _
    split_ifs with h
    · subst h
      simp
      tauto
    · rw [mem_setAdd]
      constructor
      · rintro (hx | rfl)
        · exact Or.inl hx
        · exact Or.inr ⟨rfl, h⟩
      · rintro (hx | ⟨hsx, hx⟩)
        · exact Or.inl hx
        · injection hsx with h'
          subst h'
          exact Or.inr rfl

theorem mem_foldl_setAddAll_field (accF : PageAcc → List String)
    (fragF : Fragment → List String)
    (hstep : ∀ acc f, accF (addFragment acc f) = setAddAll (accF acc) (fragF f))
    (l : List Fragment) (acc : PageAcc) (x : String) :
    x ∈ accF (l.foldl addFragment acc) ↔ x ∈ accF acc ∨ ∃ f ∈ l, x ∈ fragF f := by
  induction l generalizing acc with
  | nil => simp
  | cons f fs ih =>
    rw [List.foldl_cons, ih, hstep, mem_setAddAll]
    simp only [List.mem_cons]
    constructor
    · rintro ((h | h) | ⟨g, hg, hx⟩)
      · exact Or.inl h
      · exact Or.inr ⟨f, Or.inl rfl, h⟩
      · exact Or.inr ⟨g, Or.inr hg, hx⟩
    · rintro (h | ⟨g, (rfl | hg), hx⟩)
      · exact Or.inl (Or.inl h)
      · exact Or.inl (Or.inr hx)
      · exact Or.inr ⟨g, hg, hx⟩

theorem mem_foldl_setAddOpt_field (accF : PageAcc → List String)
    (fragF : Fragment → Option String)
    (hstep : ∀ acc f, accF (addFragment acc f) = setAddOpt (accF acc) (fragF f))
    (l : List Fragment) (acc : PageAcc) (x : String) :
    x ∈ accF (l.foldl addFragment acc) ↔
      x ∈ accF acc ∨ ∃ f ∈ l, fragF f = some x ∧ x ≠ "" := by
  induction l generalizing acc with
  | nil => simp
  | cons f fs ih =>
    rw [List.foldl_cons, ih, hstep, mem_setAddOpt]
    simp only [List.mem_cons]
    constructor
    · rintro ((h | h) | ⟨g, hg, hx⟩)
      · exact Or.inl h
      · exact Or.inr ⟨f, Or.inl rfl, h⟩
      · exact Or.inr ⟨g, Or.inr hg, hx⟩
    · rintro (h | ⟨g, (rfl | hg), hx⟩)
      · exact Or.inl (Or.inl h)
      · exact Or.inl (Or.inr hx)
      · exact Or.inr ⟨g, hg, hx⟩

theorem mem_insertKey (ks : List String) (k' k : String) :
    k ∈ insertKey ks k' ↔ k ∈ ks ∨ k = k' := by
  unfold insertKey
  split_ifs with h
  · constructor
    · exact Or.inl
    · rintro (hx | rfl)
      · exact hx
      · exact h
  · simp

theorem mem_foldl_pageKeysStep (l : List Fragment) (ks : List String) (k : String) :
    k ∈ l.foldl pageKeysStep ks ↔ k ∈ ks ∨ (k ≠ "" ∧ ∃ f ∈ l, pageKey f = k) := by
  induction l generalizing ks with
  | nil => simp
  | cons f fs ih =>
    rw [List.foldl_cons, ih]
    by_cases hf : pageKey f = ""
    · have hstep : pageKeysStep ks f = ks := by
        unfold pageKeysStep
        dsimp only
        rw [if_pos hf]
      rw [hstep]
      constructor
      · rintro (h | ⟨hk, g, hg, hpk⟩)
        · exact Or.inl h
        · exact Or.inr ⟨hk, g, List.mem_cons_of_mem f hg, hpk⟩
      · rintro (h | ⟨hk, g, hg, hpk⟩)
        · exact Or.inl h
        · rcases List.mem_cons.mp hg with rfl | hg'
          · exact absurd (hf.symm.trans hpk).symm hk
          · exact Or.inr ⟨hk, g, hg', hpk⟩
    · have hstep : pageKeysStep ks f = insertKey ks (pageKey f) := by
        unfold pageKeysStep
        dsimp only
        rw [if_neg hf]
      rw [hstep]
      constructor
      · rintro (h | ⟨hk, g, hg, hpk⟩)
        · rcases (mem_insertKey ks (pageKey f) k).mp h with h' | he
          · exact Or.inl h'
          · exact Or.inr ⟨by rw [he]; exact hf, f, List.mem_cons_self f fs, he.symm⟩
        · exact Or.inr ⟨hk, g, List.mem_cons_of_mem f hg, hpk⟩
      · rintro (h | ⟨hk, g, hg, hpk⟩)
        · exact Or.inl ((mem_insertKey ks (pageKey f) k).mpr (Or.inl h))
        · rcases List.mem_cons.mp hg with rfl | hg'
          · exact Or.inl ((mem_insertKey ks (pageKey g) k).mpr (Or.inr hpk.symm))
          · exact Or.inr ⟨hk, g, hg', hpk⟩

theorem mem_pageKeys (l : List Fragment) (k : String) :
    k ∈ pageKeys l ↔ k ≠ "" ∧ ∃ f ∈ l, pageKey f = k := by
  unfold pageKeys
  rw [mem_foldl_pageKeysStep]
  simp

theorem buildAccFor_append_singleton (l : List Fragment) (f : Fragment) (k : String) :
    buildAccFor (l ++ [f]) k =
      if pageKey f = k then addFragment (buildAccFor l k) f else buildAccFor l k := by
  unfold buildAccFor
  rw [List.filter_append, List.foldl_append]
  by_cases hpk : pageKey f = k
  · rw [if_pos hpk]
    have hone : List.filter (fun g => pageKey g = k) [f] = [f] := by
      simp [List.filter, hpk]
    rw [hone]
    rfl
  · rw [if_neg hpk]
    have hnone : List.filter (fun g => pageKey g = k) [f] = [] := by
      simp [List.filter, hpk]
    rw [hnone]
    rfl

theorem buildPagesMap_eq (l : List Fragment) :
    buildPagesMap l = (pageKeys l).map (fun k => (k, buildAccFor l k)) := by
  induction l using List.reverseRecOn with
  | nil => rfl
  | append_singleton l f ih =>
    have hL : buildPagesMap (l ++ [f]) = buildStep (buildPagesMap l) f := by
      unfold buildPagesMap
      rw [List.foldl_append]
      rfl
    have hK : pageKeys (l ++ [f]) = pageKeysStep (pageKeys l) f := by
      unfold pageKeys
      rw [List.foldl_append]
      rfl
    rw [hL, hK, ih]
    by_cases hf : pageKey f = ""
    · have hstep : buildStep ((pageKeys l).map (fun k => (k, buildAccFor l k))) f =
          (pageKeys l).map (fun k => (k, buildAccFor l k)) := by
        unfold buildStep
        dsimp only
        rw [if_pos hf]
      have hkeys : pageKeysStep (pageKeys l) f = pageKeys l := by
        unfold pageKeysStep
        dsimp only
        rw [if_pos hf]
      rw [hstep, hkeys]
      apply List.map_congr_left
      intro k hk
      have hkne : k ≠ "" := ((mem_pageKeys l k).mp hk).1
      rw [buildAccFor_append_singleton, if_neg (fun h => hkne (h.symm.trans hf))]
    · have hkeys : pageKeysStep (pageKeys l) f = insertKey (pageKeys l) (pageKey f) := by
        unfold pageKeysStep
        dsimp only
        rw [if_neg hf]
      rw [hkeys]
      by_cases hmem : pageKey f ∈ pageKeys l
      · have hins : insertKey (pageKeys l) (pageKey f) = pageKeys l := by
          unfold insertKey
          rw [if_pos hmem]
        rw [hins]
        have hany : ((pageKeys l).map (fun k => (k, buildAccFor l k))).any
            (fun p => p.1 = pageKey f) = true := by
          rw [List.any_eq_true]
          exact ⟨(pageKey f, buildAccFor l (pageKey f)),
            List.mem_map_of_mem _ hmem, by simp⟩
        have hstep : buildStep ((pageKeys l).map (fun k => (k, buildAccFor l k))) f =
            ((pageKeys l).map (fun k => (k, buildAccFor l k))).map
              (fun p => if p.1 = pageKey f then (p.1, addFragment p.2 f) else p) := by
          unfold buildStep
          dsimp only
          rw [if_neg hf, if_pos hany]
        rw [hstep, List.map_map]
        apply List.map_congr_left
        intro k hk
        simp only [Function.comp]
        rw [buildAccFor_append_singleton]
        by_cases hkf : k = pageKey f
        · rw [if_pos hkf, if_pos hkf.symm]
        · rw [if_neg hkf, if_neg (fun h => hkf h.symm)]
      · have hins : insertKey (pageKeys l) (pageKey f) = pageKeys l ++ [pageKey f] := by
          unfold insertKey
          rw [if_neg hmem]
        rw [hins]
        have hany : ¬(((pageKeys l).map (fun k => (k, buildAccFor l k))).any
            (fun p => p.1 = pageKey f) = true) := by
          rw [List.any_eq_true]
          rintro ⟨⟨k', acc'⟩, hp, hdec⟩
          rcases List.mem_map.mp hp with ⟨k'', hk'', heq⟩
          injection heq with h1 h2
          subst h1
          have hkf : k'' = pageKey f := by simpa using hdec
          exact hmem (hkf ▸ hk'')
        have hstep : buildStep ((pageKeys l).map (fun k => (k, buildAccFor l k))) f =
            (pageKeys l).map (fun k => (k, buildAccFor l k)) ++
              [(pageKey f, addFragment (initAcc (pageKey f)) f)] := by
          unfold buildStep
          dsimp only
          rw [if_neg hf, if_neg hany]
        rw [hstep, List.map_append]
        congr 1
        · apply List.map_congr_left
          intro k hk
          rw [buildAccFor_append_singleton,
            if_neg (by intro h; exact hmem (h.symm ▸ hk))]
        · have hfl : List.filter (fun g => pageKey g = pageKey f) l = [] := by
            rw [List.filter_eq_nil_iff]
            intro g hg
            simp only [decide_eq_true_eq]
            intro hpk
            exact hmem ((mem_pageKeys l (pageKey f)).mpr ⟨hf, g, hg, hpk⟩)
          have hacc : buildAccFor l (pageKey f) = initAcc (pageKey f) := by
            unfold buildAccFor
            rw [hfl]
            rfl
          simp only [List.map_cons, List.map_nil]
          rw [buildAccFor_append_singleton, if_pos rfl, hacc]

theorem buildPageDocs_eq (v t : Nat) (l : List Fragment) :
    buildPageDocs v t l =
      (pageKeys l).map (fun k => finalizePage v t (buildAccFor l k)) := by
  unfold buildPageDocs
  rw [buildPagesMap_eq, List.map_map]
  rfl

theorem buildAccFor_url (l : List Fragment) (k : String) :
    (buildAccFor l k).url = k := by
  unfold buildAccFor
  rw [foldl_addFragment_url]
  rfl

theorem buildAccFor_host (l : List Fragment) (k : String) :
    (buildAccFor l k).host = hostOf k := by
  unfold buildAccFor
  rw [foldl_addFragment_host]
  rfl

theorem map_url_buildPageDocs (v t : Nat) (l : List Fragment) :
    (buildPageDocs v t l).map PageDoc.url = pageKeys l := by
  rw [buildPageDocs_eq, List.map_map]
  have h1 : ∀ k ∈ pageKeys l,
      (PageDoc.url ∘ fun k => finalizePage v t (buildAccFor l k)) k = id k := by
    intro k _
    show (buildAccFor l k).url = k
    exact buildAccFor_url l k
  rw [List.map_congr_left h1, List.map_id]

theorem exists_mem_perm {α : Type} {la lb : List α} (h : la.Perm lb) (Q : α → Prop) :
    (∃ f ∈ la, Q f) ↔ ∃ f ∈ lb, Q f := by
  constructor <;> rintro ⟨f, hf, hq⟩
  · exact ⟨f, h.mem_iff.mp hf, hq⟩
  · exact ⟨f, h.mem_iff.mpr hf, hq⟩

/-- C10: every page document built by `buildPageDocs` has
`fragment_count` equal to the length of `fragment_ids`, and
`fragment_ids` is exactly the id list of the input fragments whose page
key (their `page_url`, i.e. the canonical page URL) equals the
document's `url`, in input order. -/
theorem pageDoc_fragment_ids_exact (v t : Nat) (l : List Fragment) (d : PageDoc)
    (hd : d ∈ buildPageDocs v t l) :
    d.fragment_count = d.fragment_ids.length ∧
    d.fragment_ids = (l.filter (fun f => pageKey f = d.url)).map Fragment.id := by
  rw [buildPageDocs_eq] at hd
  rcases List.mem_map.mp hd with ⟨k, hk, rfl⟩
  have hurl : (finalizePage v t (buildAccFor l k)).url = k := buildAccFor_url l k
  have hids : (finalizePage v t (buildAccFor l k)).fragment_ids =
      (l.filter (fun f => pageKey f = k)).map Fragment.id := by
    show (buildAccFor l k).fragment_ids = _
    unfold buildAccFor
    rw [foldl_addFragment_ids]
    rfl
  have hcount : (finalizePage v t (buildAccFor l k)).fragment_count =
      (l.filter (fun f => pageKey f = k)).length := by
    show (buildAccFor l k).fragment_count = _
    unfold buildAccFor
    rw [foldl_addFragment_count]
    simp [initAcc]
  refine ⟨?_, ?_⟩
  · rw [hids, hcount, List.length_map]
  · rw [hurl, hids]

/-- Witness for C10 on the two-fragment fixture page. -/
theorem pageDoc_fragment_ids_exact_witness :
    permDocA.fragment_count = permDocA.fragment_ids.length ∧
    permDocA.fragment_ids =
      ([cFragA, cFragB].filter (fun f => pageKey f = permDocA.url)).map Fragment.id :=
  pageDoc_fragment_ids_exact 2 5 [cFragA, cFragB] permDocA
    (by rw [buildPageDocs_eq]
        exact List.mem_map_of_mem _ (by decide))

/-- C1 (amended): page aggregation is permutation-invariant only up to
its set-valued and counting fields — for permuted inputs, the produced
page URLs are the same, and page documents with the same `url` have
equal `host` and `fragment_count`, `fragment_ids` equal as multisets,
and the same elements in `life_events`, `categories`, `states`,
`provider`, `governance` and `keywords`; `content_text` (hence the
embedding derived from it), `stage`, `stage_variant` and `title`
tie-breaking depend on the input order (see the counterexample). -/
theorem buildPageDocs_perm_invariants (v t : Nat) (l₁ l₂ : List Fragment)
    (d₁ d₂ : PageDoc) (u x : String) (hp : l₁.Perm l₂)
    (h₁ : d₁ ∈ buildPageDocs v t l₁) (h₂ : d₂ ∈ buildPageDocs v t l₂)
    (hu : d₁.url = d₂.url) :
    (u ∈ (buildPageDocs v t l₁).map PageDoc.url ↔
      u ∈ (buildPageDocs v t l₂).map PageDoc.url) ∧
    d₁.host = d₂.host ∧
    d₁.fragment_count = d₂.fragment_count ∧
    d₁.fragment_ids.Perm d₂.fragment_ids ∧
    (x ∈ d₁.life_events ↔ x ∈ d₂.life_events) ∧
    (x ∈ d₁.categories ↔ x ∈ d₂.categories) ∧
    (x ∈ d₁.states ↔ x ∈ d₂.states) ∧
    (x ∈ d₁.provider ↔ x ∈ d₂.provider) ∧
    (x ∈ d₁.governance ↔ x ∈ d₂.governance) ∧
    (x ∈ d₁.keywords ↔ x ∈ d₂.keywords) := by
  rw [buildPageDocs_eq] at h₁ h₂
  rcases List.mem_map.mp h₁ with ⟨k₁, hk₁, rfl⟩
  rcases List.mem_map.mp h₂ with ⟨k₂, hk₂, rfl⟩
  have hu₁ : (finalizePage v t (buildAccFor l₁ k₁)).url = k₁ := buildAccFor_url l₁ k₁
  have hu₂ : (finalizePage v t (buildAccFor l₂ k₂)).url = k₂ := buildAccFor_url l₂ k₂
  have hkk : k₁ = k₂ := hu₁.symm.trans (hu.trans hu₂)
  subst hkk
  have hpf : (l₁.filter (fun f => pageKey f = k₁)).Perm
      (l₂.filter (fun f => pageKey f = k₁)) := hp.filter _
  refine ⟨?_, ?_, ?_, ?_, ?_, ?_, ?_, ?_, ?_, ?_⟩
  · rw [map_url_buildPageDocs, map_url_buildPageDocs, mem_pageKeys, mem_pageKeys]
    constructor <;> rintro ⟨hne, f, hf, hpk⟩
    · exact ⟨hne, f, hp.mem_iff.mp hf, hpk⟩
    · exact ⟨hne, f, hp.mem_iff.mpr hf, hpk⟩
  · show (buildAccFor l₁ k₁).host = (buildAccFor l₂ k₁).host
    rw [buildAccFor_host, buildAccFor_host]
  · show (buildAccFor l₁ k₁).fragment_count = (buildAccFor l₂ k₁).fragment_count
    unfold buildAccFor
    rw [foldl_addFragment_count, foldl_addFragment_count, hpf.length_eq]
  · show ((buildAccFor l₁ k₁).fragment_ids).Perm ((buildAccFor l₂ k₁).fragment_ids)
    unfold buildAccFor
    rw [foldl_addFragment_ids, foldl_addFragment_ids]
    exact hpf.map Fragment.id
  · show x ∈ (buildAccFor l₁ k₁).life_events ↔ x ∈ (buildAccFor l₂ k₁).life_events
    unfold buildAccFor
    rw [mem_foldl_setAddAll_field PageAcc.life_events Fragment.life_events
        (fun _ _ => rfl),
      mem_foldl_setAddAll_field PageAcc.life_events Fragment.life_events
        (fun _ _ => rfl),
      exists_mem_perm hpf]
  · show x ∈ (buildAccFor l₁ k₁).categories ↔ x ∈ (buildAccFor l₂ k₁).categories
    unfold buildAccFor
    rw [mem_foldl_setAddAll_field PageAcc.categories Fragment.categories
        (fun _ _ => rfl),
      mem_foldl_setAddAll_field PageAcc.categories Fragment.categories
        (fun _ _ => rfl),
      exists_mem_perm hpf]
  · show x ∈ (buildAccFor l₁ k₁).states ↔ x ∈ (buildAccFor l₂ k₁).states
    unfold buildAccFor
    rw [mem_foldl_setAddAll_field PageAcc.states Fragment.states (fun _ _ => rfl),
      mem_foldl_setAddAll_field PageAcc.states Fragment.states (fun _ _ => rfl),
      exists_mem_perm hpf]
  · show x ∈ (buildAccFor l₁ k₁).provider ↔ x ∈ (buildAccFor l₂ k₁).provider
    unfold buildAccFor
    rw [mem_foldl_setAddOpt_field PageAcc.provider Fragment.provider (fun _ _ => rfl),
      mem_foldl_setAddOpt_field PageAcc.provider Fragment.provider (fun _ _ => rfl),
      exists_mem_perm hpf]
  · show x ∈ (buildAccFor l₁ k₁).governance ↔ x ∈ (buildAccFor l₂ k₁).governance
    unfold buildAccFor
    rw [mem_foldl_setAddOpt_field PageAcc.governance Fragment.governance
        (fun _ _ => rfl),
      mem_foldl_setAddOpt_field PageAcc.governance Fragment.governance
        (fun _ _ => rfl),
      exists_mem_perm hpf]
  · show x ∈ (buildAccFor l₁ k₁).keywords ↔ x ∈ (buildAccFor l₂ k₁).keywords
    unfold buildAccFor
    rw [mem_foldl_setAddAll_field PageAcc.keywords Fragment.search_keywords
        (fun _ _ => rfl),
      mem_foldl_setAddAll_field PageAcc.keywords Fragment.search_keywords
        (fun _ _ => rfl),
      exists_mem_perm hpf]

/-- Witness for the amended C1 on the two-fragment fixture and its
swapped order. -/
theorem buildPageDocs_perm_invariants_witness :
    (permPageKey ∈ permDocsA.map PageDoc.url ↔ permPageKey ∈ permDocsB.map PageDoc.url) ∧
    permDocA.host = permDocB.host ∧
    permDocA.fragment_count = permDocB.fragment_count ∧
    permDocA.fragment_ids.Perm permDocB.fragment_ids ∧
    ("le1" ∈ permDocA.life_events ↔ "le1" ∈ permDocB.life_events) ∧
    ("le1" ∈ permDocA.categories ↔ "le1" ∈ permDocB.categories) ∧
    ("le1" ∈ permDocA.states ↔ "le1" ∈ permDocB.states) ∧
    ("le1" ∈ permDocA.provider ↔ "le1" ∈ permDocB.provider) ∧
    ("le1" ∈ permDocA.governance ↔ "le1" ∈ permDocB.governance) ∧
    ("le1" ∈ permDocA.keywords ↔ "le1" ∈ permDocB.keywords) :=
  buildPageDocs_perm_invariants 2 5 [cFragA, cFragB] [cFragB, cFragA]
    permDocA permDocB permPageKey "le1" (List.Perm.swap cFragB cFragA [])
    (by rw [buildPageDocs_eq]
        exact List.mem_map_of_mem _ (by decide))
    (by rw [buildPageDocs_eq]
        exact List.mem_map_of_mem _ (by decide))
    rfl

/-- C1 counterexample: swapping two same-page fragments changes the
produced page document's `content_text` (and with it the embedding
input), `title` and `stage`/`stage_variant` — the claimed
order-insensitivity of `buildPageDocs` fails for these fields. -/
theorem buildPageDocs_order_dependent :
    ([cFragB, cFragA].Perm [cFragA, cFragB]) ∧
    (buildPageDocs 2 5 [cFragA, cFragB]).map
        (fun d => (d.url, d.title, d.content_text, d.stage, d.stage_variant)) ≠
      (buildPageDocs 2 5 [cFragB, cFragA]).map
        (fun d => (d.url, d.title, d.content_text, d.stage, d.stage_variant)) := by
  refine ⟨List.Perm.swap cFragA cFragB [], ?_⟩
  decide
